import Mathlib

/-!
Verification of the perf-tests metrics pipeline
(`perf-tests/reparse_warp_raw.py` and `perf-tests/report.py`).

Conventions of the shallow embedding:
* JSON values are modelled by `JVal`; a Python value obtained by decoding
  JSON is a `JVal`, with Python `None` identified with JSON `null`
  (`json.loads` maps `null` to `None`).
* Numbers are exact rationals (`ℚ`).  All numeric facts proved below only
  involve values and operations that are exact in IEEE doubles as well.
* A Python function that can raise is embedded as an `Option`-valued
  function; `none` models a raised exception (`AttributeError`,
  `TypeError`, `ValueError`, `json.JSONDecodeError` all collapse to
  `none`, since the source never distinguishes them: it either lets them
  escape or catches `JSONDecodeError` alone, and we keep those cases
  apart structurally).
* `float(x)` / `int(x)` are embedded by `pyFloat` / `pyInt`; string
  arguments are parsed as plain numeric literals (the exotic Python forms
  `inf`, `nan` and underscore separators are treated as failures; no
  claim below depends on them).
* Python's truthiness (`or`, `if x:`) is `pyTruthy` / `pyOr`.
* JSON objects are association lists in insertion order; duplicate keys
  (which Python's `dict` collapses, last value winning) are looked up
  last-match-first by `jfind`, and no input considered below has
  duplicate keys.
-/

namespace S3PerfTests

attribute [local semireducible] Rat.ofScientific Rat.mul Rat.inv Rat.add Rat.sub

/-- A decoded JSON value (= the Python value returned by `json.loads`). -/
inductive JVal where
  | jnull
  | jbool (b : Bool)
  | jnum (q : ℚ)
  | jstr (s : String)
  | jarr (items : List JVal)
  | jobj (fields : List (String × JVal))

/-- The empty JSON object `{}`. -/
def jobjE : JVal := JVal.jobj []

/-- Python truthiness of a decoded JSON value. -/
def pyTruthy : JVal → Bool
  | JVal.jnull => false
  | JVal.jbool b => b
  | JVal.jnum q => decide (q ≠ 0)
  | JVal.jstr s => decide (s ≠ "")
  | JVal.jarr items => !items.isEmpty
  | JVal.jobj fields => !fields.isEmpty

/-- Python `a or b` on decoded JSON values. -/
def pyOr (a b : JVal) : JVal := if pyTruthy a then a else b

/-- Is this value JSON `null` (= Python `None`)? -/
def isNull : JVal → Bool
  | JVal.jnull => true
  | _ => false

/-- Is this value a JSON object (= Python `dict`)? -/
def isObj : JVal → Bool
  | JVal.jobj _ => true
  | _ => false

/-- Last binding of a key in an association list (Python `dict` keeps the
last value for a duplicated JSON key). -/
def jfind (fields : List (String × JVal)) (k : String) : Option JVal :=
  match fields with
  | [] => none
  | (k', v) :: rest =>
    match jfind rest k with
    | some w => some w
    | none => if k' = k then some v else none

/-- Python `d.get(k, dflt)` on a known `dict`. -/
def jlookupD (fields : List (String × JVal)) (k : String) (dflt : JVal) : JVal :=
  (jfind fields k).getD dflt

/-- Python `d.get(k)` on a known `dict` (missing key gives `None` = `jnull`). -/
def jlookup (fields : List (String × JVal)) (k : String) : JVal :=
  jlookupD fields k JVal.jnull

/-- Python `x.get(k)` where `x` may be any value: raises `AttributeError`
(modelled by `none`) unless `x` is a `dict`. -/
def dget : JVal → String → Option JVal
  | JVal.jobj fields, k => some (jlookup fields k)
  | _, _ => none

/-- Numeric coercion performed by Python arithmetic operators: numbers and
booleans work, everything else is a `TypeError` (`none`). -/
def pyArithNum : JVal → Option ℚ
  | JVal.jnum q => some q
  | JVal.jbool b => some (if b then 1 else 0)
  | _ => none

/-- Truncation of a rational toward zero, as Python `int()` on a float. -/
def truncQ (q : ℚ) : ℤ := if q < 0 then -((-q).floor) else q.floor

/-- Character class used by the JSON lexer and by Python literal parsing. -/
def isWsC (c : Char) : Bool := c = ' ' || c = '\t' || c = '\n' || c = '\r'

/-- Decimal digit test. -/
def isDigC (c : Char) : Bool := '0' ≤ c && c ≤ '9'

/-- Left brace and right brace characters, by code point. -/
def lbrace : Char := Char.ofNat 123

/-- Right brace character. -/
def rbrace : Char := Char.ofNat 125

/-- Drop leading JSON whitespace. -/
def dropWs : List Char → List Char
  | [] => []
  | c :: cs => if isWsC c then dropWs cs else c :: cs

/-- Split a maximal run of leading digits. -/
def splitDigits : List Char → List Char × List Char
  | [] => ([], [])
  | c :: cs =>
    if isDigC c then
      let p := splitDigits cs
      (c :: p.1, p.2)
    else ([], c :: cs)

/-- Numeric value of a digit run. -/
def digitsVal (ds : List Char) : ℤ :=
  ds.foldl (fun acc c => acc * 10 + ((c.toNat : ℤ) - ('0'.toNat : ℤ))) 0

/-- Value of a decimal literal `intDs . fracDs e expo` as an exact rational. -/
def decimalVal (neg : Bool) (intDs fracDs : List Char) (expo : ℤ) : ℚ :=
  (if neg then -1 else 1) * ((digitsVal (intDs ++ fracDs) : ℚ)
    * (10 : ℚ) ^ (expo - (fracDs.length : ℤ)))

/-- Parse an optional exponent part `e`/`E` sign digits (at least one digit). -/
def splitExpo : List Char → Option (ℤ × List Char)
  | c :: cs =>
    if c = 'e' || c = 'E' then
      match cs with
      | '+' :: cs' =>
        let p := splitDigits cs'
        if p.1 = [] then none else some (digitsVal p.1, p.2)
      | '-' :: cs' =>
        let p := splitDigits cs'
        if p.1 = [] then none else some (-digitsVal p.1, p.2)
      | _ =>
        let p := splitDigits cs
        if p.1 = [] then none else some (digitsVal p.1, p.2)
    else some (0, c :: cs)
  | [] => some (0, [])

/-- Parse a JSON number (strict grammar: optional `-`, no leading zeros,
optional fraction with at least one digit, optional exponent). -/
def parseJNum (s : List Char) : Option (ℚ × List Char) :=
  let (neg, s1) := match s with
    | '-' :: r => (true, r)
    | _ => (false, s)
  match s1 with
  | [] => none
  | c :: r =>
    if ¬ isDigC c then none
    else
      let (intDs, s2) := if c = '0' then ([c], r) else
        let p := splitDigits r
        (c :: p.1, p.2)
      match s2 with
      | '.' :: r2 =>
        let p := splitDigits r2
        if p.1 = [] then none
        else
          match splitExpo p.2 with
          | some (e, s4) => some (decimalVal neg intDs p.1 e, s4)
          | none => none
      | _ =>
        match splitExpo s2 with
        | some (e, s3) => some (decimalVal neg intDs [] e, s3)
        | none => none

/-- Hexadecimal digit value, by code point: 0-9, then either letter range. -/
def hexDig (c : Char) : Option Nat :=
  let n := c.toNat
  if 48 ≤ n ∧ n ≤ 57 then some (n - 48)
  else if 97 ≤ n ∧ n ≤ 102 then some (n - 87)
  else if 65 ≤ n ∧ n ≤ 70 then some (n - 55)
  else none

/-- Single-character JSON escapes. -/
def escChar (c : Char) : Option Char :=
  if c = '"' || c = '\\' || c = '/' then some c
  else if c = 'n' then some '\n'
  else if c = 't' then some '\t'
  else if c = 'r' then some '\r'
  else if c = 'b' then some (Char.ofNat 8)
  else if c = 'f' then some (Char.ofNat 12)
  else none

/-- Body of a JSON string after the opening quote; rejects raw control
characters as the strict Python decoder does. -/
def parseJStrAux (acc : List Char) : List Char → Option (List Char × List Char)
  | [] => none
  | '"' :: rest => some (acc.reverse, rest)
  | '\\' :: 'u' :: a :: b :: c :: d :: rest =>
    match hexDig a, hexDig b, hexDig c, hexDig d with
    | some va, some vb, some vc, some vd =>
      parseJStrAux (Char.ofNat (((va * 16 + vb) * 16 + vc) * 16 + vd) :: acc) rest
    | _, _, _, _ => none
  | '\\' :: e :: rest =>
    match escChar e with
    | some ch => parseJStrAux (ch :: acc) rest
    | none => none
  | c :: rest =>
    if c.toNat < 32 then none else parseJStrAux (c :: acc) rest

/-- Parse a JSON string after the opening quote. -/
def parseJStr (s : List Char) : Option (String × List Char) :=
  (parseJStrAux [] s).map (fun p => (String.mk p.1, p.2))

mutual

/-- Parse one JSON value (fuel-bounded; one unit of fuel per grammar step). -/
def parseJVal : Nat → List Char → Option (JVal × List Char)
  | 0, _ => none
  | fuel + 1, s =>
    match dropWs s with
    | [] => none
    | c :: r =>
      if c = lbrace then
        (parseObjRest fuel r).map (fun p => (JVal.jobj p.1, p.2))
      else if c = '[' then
        (parseArrRest fuel r).map (fun p => (JVal.jarr p.1, p.2))
      else if c = '"' then
        (parseJStr r).map (fun p => (JVal.jstr p.1, p.2))
      else
        match c :: r with
        | 'n' :: 'u' :: 'l' :: 'l' :: r2 => some (JVal.jnull, r2)
        | 't' :: 'r' :: 'u' :: 'e' :: r2 => some (JVal.jbool true, r2)
        | 'f' :: 'a' :: 'l' :: 's' :: 'e' :: r2 => some (JVal.jbool false, r2)
        | s2 => (parseJNum s2).map (fun p => (JVal.jnum p.1, p.2))

/-- Parse the remainder of an object after the opening brace. -/
def parseObjRest : Nat → List Char → Option (List (String × JVal) × List Char)
  | 0, _ => none
  | fuel + 1, s =>
    match dropWs s with
    | [] => none
    | c :: r => if c = rbrace then some ([], r) else parseMembers fuel (c :: r)

/-- Parse one or more `"key": value` members separated by commas, up to the
closing brace. -/
def parseMembers : Nat → List Char → Option (List (String × JVal) × List Char)
  | 0, _ => none
  | fuel + 1, s =>
    match dropWs s with
    | '"' :: r =>
      match parseJStr r with
      | none => none
      | some (key, r1) =>
        match dropWs r1 with
        | ':' :: r2 =>
          match parseJVal fuel r2 with
          | none => none
          | some (v, r3) =>
            match dropWs r3 with
            | ',' :: r4 =>
              (parseMembers fuel r4).map (fun p => ((key, v) :: p.1, p.2))
            | c :: r4 => if c = rbrace then some ([(key, v)], r4) else none
            | [] => none
        | _ => none
    | _ => none

/-- Parse the remainder of an array after the opening bracket. -/
def parseArrRest : Nat → List Char → Option (List JVal × List Char)
  | 0, _ => none
  | fuel + 1, s =>
    match dropWs s with
    | [] => none
    | ']' :: r => some ([], r)
    | s2 => parseElems fuel s2

/-- Parse one or more array elements separated by commas, up to the closing
bracket. -/
def parseElems : Nat → List Char → Option (List JVal × List Char)
  | 0, _ => none
  | fuel + 1, s =>
    match parseJVal fuel s with
    | none => none
    | some (v, r) =>
      match dropWs r with
      | ',' :: r2 => (parseElems fuel r2).map (fun p => (v :: p.1, p.2))
      | ']' :: r2 => some ([v], r2)
      | _ => none

end

/-- `json.loads` on a character list: parse one value and require that only
whitespace remains. -/
def jloads (s : List Char) : Option JVal :=
  match parseJVal (s.length + 1) s with
  | some (v, rest) => if dropWs rest = [] then some v else none
  | none => none

/-- Index of the first left brace, or `none` (source: `content.find`). -/
def findOpen : List Char → Option Nat
  | [] => none
  | c :: rest =>
    if c = lbrace then some 0 else (findOpen rest).map (· + 1)

/-- The brace-balance scan of `extract_json_from_raw`: walk the text keeping
a depth counter (`+1` on a left brace, `-1` on a right brace) and remember,
in `e`, the index of every right brace at which the depth comes back to 0;
the final remembered index (or `-1`) is returned. -/
def braceStep (c : Char) (depth : Int) : Int :=
  if c = lbrace then depth + 1 else if c = rbrace then depth - 1 else depth

/-- Auxiliary loop of the brace-balance scan. -/
def braceEndAux : List Char → Nat → Int → Int → Int
  | [], _, _, e => e
  | c :: rest, i, depth, e =>
    braceEndAux rest (i + 1) (braceStep c depth)
      (if c = rbrace ∧ braceStep c depth = 0 then (i : Int) else e)

/-- Entry point of the brace-balance scan (depth 0, end `-1`). -/
def braceEnd (s : List Char) : Int := braceEndAux s 0 0 (-1)

/-- Source: `extract_json_from_raw` — strip everything before the first left
brace, try a direct parse of the remaining text, and on failure retry on the
prefix ending at the brace-balance end position. -/
def extract_json_from_raw (content : List Char) : Option JVal :=
  match findOpen content with
  | none => none
  | some start =>
    let json_str := content.drop start
    match jloads json_str with
    | some v => some v
    | none =>
      let e := braceEnd json_str
      if 0 ≤ e then jloads (json_str.take (e.toNat + 1)) else none

/-- Parse the body of a Python float literal: optional sign, digits with an
optional fraction part (at least one digit overall), optional exponent.
Returns the value and the remaining characters. -/
def floatLitBody (s : List Char) : Option (ℚ × List Char) :=
  let (neg, s1) := match s with
    | '-' :: r => (true, r)
    | '+' :: r => (false, r)
    | _ => (false, s)
  let (intDs, s2) := splitDigits s1
  let (fracDs, s3) := match s2 with
    | '.' :: r => splitDigits r
    | _ => ([], s2)
  if intDs = [] ∧ fracDs = [] then none
  else
    match splitExpo s3 with
    | some (e, s4) => some (decimalVal neg intDs fracDs e, s4)
    | none => none

/-- Python `float(string)`: leading and trailing whitespace allowed around a
numeric literal, anything else is a `ValueError`.  (`inf`, `nan` and
underscore separators are deliberately unsupported and fail here; no input
considered in this development uses them.) -/
def parseFloatLit (s : List Char) : Option ℚ :=
  match floatLitBody (dropWs s) with
  | some (q, rest) => if dropWs rest = [] then some q else none
  | none => none

/-- Python `float(x)` on a decoded JSON value: numbers and booleans convert,
numeric strings are parsed, everything else raises (`none`). -/
def pyFloat : JVal → Option ℚ
  | JVal.jnum q => some q
  | JVal.jbool b => some (if b then 1 else 0)
  | JVal.jstr s => parseFloatLit s.toList
  | _ => none

/-- Python `int(string)`: whitespace, an optional sign and at least one
digit; a fractional part is a `ValueError`. -/
def parseIntLit (s : List Char) : Option ℤ :=
  let s0 := dropWs s
  let (neg, s1) := match s0 with
    | '-' :: r => (true, r)
    | '+' :: r => (false, r)
    | _ => (false, s0)
  let (ds, s2) := splitDigits s1
  if ds = [] then none
  else if dropWs s2 = [] then some ((if neg then -1 else 1) * digitsVal ds)
  else none

/-- Python `int(x)` on a decoded JSON value: numbers truncate toward zero,
booleans convert, integer-literal strings are parsed, everything else
raises (`none`). -/
def pyInt : JVal → Option ℤ
  | JVal.jnum q => some (truncQ q)
  | JVal.jbool b => some (if b then 1 else 0)
  | JVal.jstr s => parseIntLit s.toList
  | _ => none

/-- Uppercase a string, as Python `str.upper()` on ASCII operation names. -/
def upperStr (s : String) : String := s.map Char.toUpper

/-- The fixed-shape metrics record built by the extractor: the nine metric
fields of one summary entry. -/
structure MetricsRecord where
  throughput_mbps : ℚ
  ops_per_sec : ℚ
  avg_latency_ms : ℚ
  p50_latency_ms : ℚ
  p90_latency_ms : ℚ
  p99_latency_ms : ℚ
  total_operations : ℤ
  errors : ℤ
  error_rate : ℚ
deriving DecidableEq

/-- Outcome of probing one segment of the per-client request breakdown
(the body of the inner `for seg in segments` loop of `parse_warp_v2`):
either the four latency values were found (and the loop breaks), or the
segment exposes neither a first-byte block nor a duration summary and the
loop continues. -/
inductive SegScan where
  | found (avg p50 p90 p99 : ℚ)
  | pass
deriving DecidableEq

/-- One iteration of the inner segment loop of `parse_warp_v2`: read
`single_sized_requests`, prefer a truthy `first_byte` block, otherwise use
the `dur_*` summary when `dur_avg_millis` is not `None`. -/
def segProbe (seg : JVal) : Option SegScan := do
  let s0 ← dget seg "single_sized_requests"
  let s := pyOr s0 jobjE
  let fb0 ← dget s "first_byte"
  let fb := pyOr fb0 jobjE
  if pyTruthy fb then do
    let avg ← pyFloat (pyOr (← dget fb "average_millis") (JVal.jnum 0))
    let p50 ← pyFloat (pyOr (← dget fb "median_millis") (JVal.jnum 0))
    let p90 ← pyFloat (pyOr (← dget fb "p90_millis") (JVal.jnum 0))
    let p99 ← pyFloat (pyOr (← dget fb "p99_millis") (JVal.jnum 0))
    pure (SegScan.found avg p50 p90 p99)
  else do
    let da ← dget s "dur_avg_millis"
    if isNull da then pure SegScan.pass
    else do
      let avg ← pyFloat da
      let p99 ← pyFloat (pyOr (← dget s "dur_99_millis") (JVal.jnum 0))
      let p90 ← pyFloat (pyOr (← dget s "dur_90_millis") (JVal.jnum 0))
      let dm ← dget s "dur_median_millis"
      let p50 ← if pyTruthy dm then pyFloat dm else pure avg
      pure (SegScan.found avg p50 p90 p99)

/-- Python `segments if isinstance(segments, list) else [segments]`. -/
def segListOf : JVal → List JVal
  | JVal.jarr items => items
  | v => [v]

/-- The inner segment loop: probe segments in order, return the first found
latency quadruple; all four values stay 0 when no segment matches. -/
def scanSegs : List JVal → Option (ℚ × ℚ × ℚ × ℚ)
  | [] => some (0, 0, 0, 0)
  | seg :: rest => do
    match ← segProbe seg with
    | SegScan.found avg p50 p90 p99 => pure (avg, p50, p90, p99)
    | SegScan.pass => scanSegs rest

/-- The outer client loop of `parse_warp_v2`: it breaks unconditionally
after the first client, so only the first client is ever scanned. -/
def latOfClients : List (String × JVal) → Option (ℚ × ℚ × ℚ × ℚ)
  | [] => some (0, 0, 0, 0)
  | (_, segments) :: _ => scanSegs (segListOf segments)

/-- `req_by_client.items()` when it is a `dict`, else the empty iteration. -/
def latFrom : JVal → Option (ℚ × ℚ × ℚ × ℚ)
  | JVal.jobj fields => latOfClients fields
  | _ => some (0, 0, 0, 0)

/-- Source: `req_by_client = op_block.get('requests_by_client') or
total.get('requests_by_client') or {}` with Python's short-circuit `or`. -/
def chooseRbc (op_block total : JVal) : Option JVal := do
  let c1 ← dget op_block "requests_by_client"
  if pyTruthy c1 then pure c1
  else do
    let c2 ← dget total "requests_by_client"
    pure (pyOr c2 jobjE)

/-- Source lines `thr = total.get('throughput') or op_block.get('throughput')
or {}` with Python's short-circuit `or`. -/
def v2Thr (total op_block : JVal) : Option JVal := do
  let t1 ← dget total "throughput"
  if pyTruthy t1 then pure t1 else do
    let t2 ← dget op_block "throughput"
    pure (pyOr t2 jobjE)

/-- Source: `duration_millis = thr.get('measure_duration_millis') or 0` and
`duration_sec = duration_millis / 1000.0 if duration_millis else 0`. -/
def v2Duration (thr : JVal) : Option ℚ := do
  let dm0 ← dget thr "measure_duration_millis"
  let dm := pyOr dm0 (JVal.jnum 0)
  if pyTruthy dm then do
    let q ← pyArithNum dm
    pure (q / 1000)
  else pure 0

/-- Source: `bytes_val = float(thr.get('bytes') or total.get('total_bytes')
or 0)`. -/
def v2Bytes (thr total : JVal) : Option ℚ := do
  let b1 ← dget thr "bytes"
  let bj ← if pyTruthy b1 then pure b1 else do
    let b2 ← dget total "total_bytes"
    pure (pyOr b2 (JVal.jnum 0))
  pyFloat bj

/-- Source: `total_requests = int(total.get('total_requests') or
total.get('total_objects') or 0)`. -/
def v2Requests (total : JVal) : Option ℤ := do
  let r1 ← dget total "total_requests"
  let rj ← if pyTruthy r1 then pure r1 else do
    let r2 ← dget total "total_objects"
    pure (pyOr r2 (JVal.jnum 0))
  pyInt rj

/-- Source: `total_errors = int(total.get('total_errors') or 0)`. -/
def v2Errors (total : JVal) : Option ℤ := do
  let e1 ← dget total "total_errors"
  pyInt (pyOr e1 (JVal.jnum 0))

/-- Source: `ops_val = thr.get('ops') or thr.get('objects')`, the
`total_requests` fallback when it `is None`, and the final
`float(ops_val or 0)`. -/
def v2Ops (thr : JVal) (total_requests : ℤ) (duration_sec : ℚ) : Option ℚ := do
  let o1 ← dget thr "ops"
  let ops0 ← if pyTruthy o1 then pure o1 else dget thr "objects"
  let opsj := if isNull ops0 && decide (total_requests ≠ 0) && decide (duration_sec ≠ 0)
    then JVal.jnum (total_requests : ℚ) else ops0
  pyFloat (pyOr opsj (JVal.jnum 0))

/-- Source: `parse_warp_v2(data, operation)` — extract summary metrics from
a warp v2 document.  `none` models a raised exception (e.g. an
`AttributeError` from `.get` on a non-dict, or a `ValueError`/`TypeError`
from a numeric coercion).  The pure arithmetic lines of the source are
inlined in the final record; this reordering is observable only through
which exception would be raised, and all exceptions are identified. -/
def parse_warp_v2 (data : JVal) (operation : String) : Option MetricsRecord := do
  let tv ← dget data "total"
  let total := pyOr tv jobjE
  let bv ← dget data "by_op_type"
  let by_op := pyOr bv jobjE
  let opb0 := match by_op with
    | JVal.jobj fields => jlookup fields (upperStr operation)
    | _ => jobjE
  let op_block := if pyTruthy opb0 then opb0 else total
  let thr ← v2Thr total op_block
  let duration_sec ← v2Duration thr
  let bytes_val ← v2Bytes thr total
  let total_requests ← v2Requests total
  let total_errors ← v2Errors total
  let ops_val ← v2Ops thr total_requests duration_sec
  let rbc ← chooseRbc op_block total
  let lat ← latFrom rbc
  pure {
    throughput_mbps :=
      if duration_sec ≠ 0 then bytes_val / (1024 * 1024) / duration_sec else 0,
    ops_per_sec := if duration_sec ≠ 0 then ops_val / duration_sec else 0,
    avg_latency_ms := lat.1,
    p50_latency_ms := lat.2.1,
    p90_latency_ms := lat.2.2.1,
    p99_latency_ms := lat.2.2.2,
    total_operations := total_requests,
    errors := total_errors,
    error_rate :=
      if total_requests ≠ 0 then (total_errors : ℚ) / (total_requests : ℚ) else 0 }

/-- Source dispatch condition (`reparse_run_dir`):
`isinstance(data, dict) and data.get('total') is not None`. -/
def isV2Doc : JVal → Bool
  | JVal.jobj fields => !(isNull (jlookup fields "total"))
  | _ => false

/-- Source: `data[0] if isinstance(data, list) and len(data) > 0 else data`. -/
def legacyFirst : JVal → JVal
  | JVal.jarr (x :: _) => x
  | v => v

/-- Result of processing one recovered document in `reparse_run_dir`:
either the nine metric fields written into the entry, or the `continue`
that skips a document of unrecognized shape. -/
inductive ExtractOutcome where
  | record (r : MetricsRecord)
  | skipped
deriving DecidableEq

/-- The legacy flat-record branch of `reparse_run_dir`: each metric field is
read by name (default 0) and coerced with `float`/`int`. -/
def legacyExtract (r0 : JVal) : Option ExtractOutcome :=
  match r0 with
  | JVal.jobj fields => do
    let tm ← pyFloat (pyOr (jlookupD fields "throughput_mb" (JVal.jnum 0)) (JVal.jnum 0))
    let ops ← pyFloat (pyOr (jlookupD fields "ops_per_sec" (JVal.jnum 0)) (JVal.jnum 0))
    let avg ← pyFloat (pyOr (jlookupD fields "latency_avg_ms" (JVal.jnum 0)) (JVal.jnum 0))
    let p50 ← pyFloat (pyOr (jlookupD fields "latency_p50_ms" (JVal.jnum 0)) (JVal.jnum 0))
    let p90 ← pyFloat (pyOr (jlookupD fields "latency_p90_ms" (JVal.jnum 0)) (JVal.jnum 0))
    let p99 ← pyFloat (pyOr (jlookupD fields "latency_p99_ms" (JVal.jnum 0)) (JVal.jnum 0))
    let tot ← pyInt (pyOr (jlookupD fields "operations" (JVal.jnum 0)) (JVal.jnum 0))
    let errs ← pyInt (pyOr (jlookupD fields "errors" (JVal.jnum 0)) (JVal.jnum 0))
    let er ← pyFloat (pyOr (jlookupD fields "error_rate" (JVal.jnum 0)) (JVal.jnum 0))
    pure (ExtractOutcome.record {
      throughput_mbps := tm, ops_per_sec := ops,
      avg_latency_ms := avg, p50_latency_ms := p50,
      p90_latency_ms := p90, p99_latency_ms := p99,
      total_operations := tot, errors := errs, error_rate := er })
  | _ => pure ExtractOutcome.skipped

/-- Schema dispatch of `reparse_run_dir` (lines 145-161): a dict whose
`total` is not `None` goes to `parse_warp_v2`, anything else is treated as
a legacy flat record (first element of a list), skipped unless a dict. -/
def extractMetrics (data : JVal) (operation : String) : Option ExtractOutcome :=
  if isV2Doc data then
    (parse_warp_v2 data operation).map ExtractOutcome.record
  else
    legacyExtract (legacyFirst data)

/-- One row of the summary `DataFrame` as produced by `load_data`: the key
columns plus the nine metric columns, with `size_bytes` the derived column
added by `load_data` via `parse_size_to_bytes(object_size)`. -/
structure Row where
  target : String
  operation : String
  object_size : String
  size_bytes : ℤ
  concurrency : ℤ
  iteration : ℤ
  throughput_mbps : ℚ
  ops_per_sec : ℚ
  avg_latency_ms : ℚ
  p50_latency_ms : ℚ
  p90_latency_ms : ℚ
  p99_latency_ms : ℚ
  total_operations : ℤ
  errors : ℤ
  error_rate : ℚ
deriving DecidableEq

/-- One aggregated row (`aggregate_iterations` output): the grouping
columns plus the reduced metric columns; `iteration` is dropped. -/
structure AggRow where
  target : String
  operation : String
  object_size : String
  size_bytes : ℤ
  concurrency : ℤ
  throughput_mbps : ℚ
  ops_per_sec : ℚ
  avg_latency_ms : ℚ
  p50_latency_ms : ℚ
  p90_latency_ms : ℚ
  p99_latency_ms : ℚ
  total_operations : ℤ
  errors : ℤ
  error_rate : ℚ
deriving DecidableEq

/-- The `groupby` key of `aggregate_iterations`:
`['target', 'operation', 'object_size', 'size_bytes', 'concurrency']`. -/
structure GKey where
  target : String
  operation : String
  object_size : String
  size_bytes : ℤ
  concurrency : ℤ
deriving DecidableEq

/-- Grouping key of a summary row. -/
def keyOf (r : Row) : GKey :=
  { target := r.target, operation := r.operation, object_size := r.object_size,
    size_bytes := r.size_bytes, concurrency := r.concurrency }

/-- First-appearance deduplication, as pandas `Series.unique`. -/
def uniqFirstAux [DecidableEq A] (seen : List A) : List A → List A
  | [] => []
  | x :: xs =>
    if x ∈ seen then uniqFirstAux seen xs
    else x :: uniqFirstAux (x :: seen) xs

/-- First-appearance deduplication of a list. -/
def uniqFirst [DecidableEq A] (l : List A) : List A := uniqFirstAux [] l

/-- Insert into a list sorted by the rational sort key (stable). -/
def insertByQ (f : A → ℚ) (x : A) : List A → List A
  | [] => [x]
  | y :: ys => if f x ≤ f y then x :: y :: ys else y :: insertByQ f x ys

/-- Stable sort by a rational key (insertion sort; pandas/Python sorts are
stable for the concrete inputs considered here). -/
def sortByQ (f : A → ℚ) (l : List A) : List A := l.foldr (insertByQ f) []

/-- The statistical median as pandas computes it: middle element of the
sorted list, or the mean of the two middle elements for an even count. -/
def median (xs : List ℚ) : ℚ :=
  let s := sortByQ id xs
  let n := s.length
  if n = 0 then 0
  else if n % 2 = 1 then s.getD (n / 2) 0
  else (s.getD (n / 2 - 1) 0 + s.getD (n / 2) 0) / 2

/-- Arithmetic mean (0 for an empty list, matching the guarded uses in the
source). -/
def mean (xs : List ℚ) : ℚ := if xs = [] then 0 else xs.sum / xs.length

/-- The group of rows with a given key, in input order. -/
def groupRows (rows : List Row) (k : GKey) : List Row :=
  rows.filter (fun r => decide (keyOf r = k))

/-- The reduced row of one group, per the `.agg` dictionary of
`aggregate_iterations`: median for the six rate/latency columns, sum for
`total_operations` and `errors`, mean for `error_rate`. -/
def reduceGroup (k : GKey) (g : List Row) : AggRow :=
  { target := k.target, operation := k.operation, object_size := k.object_size,
    size_bytes := k.size_bytes, concurrency := k.concurrency,
    throughput_mbps := median (g.map Row.throughput_mbps),
    ops_per_sec := median (g.map Row.ops_per_sec),
    avg_latency_ms := median (g.map Row.avg_latency_ms),
    p50_latency_ms := median (g.map Row.p50_latency_ms),
    p90_latency_ms := median (g.map Row.p90_latency_ms),
    p99_latency_ms := median (g.map Row.p99_latency_ms),
    total_operations := (g.map Row.total_operations).sum,
    errors := (g.map Row.errors).sum,
    error_rate := mean (g.map Row.error_rate) }

/-- Source: `aggregate_iterations` — group by (target, operation,
object_size, size_bytes, concurrency) and reduce each group.  Groups are
emitted in first-appearance order of their key; pandas emits them sorted
by key, a presentational difference no theorem below depends on. -/
def aggregate_iterations (rows : List Row) : List AggRow :=
  (uniqFirst (rows.map keyOf)).map (fun k => reduceGroup k (groupRows rows k))

/-- Key fields of an aggregated row, for re-grouping in the comparator. -/
def aggKey (a : AggRow) : GKey :=
  { target := a.target, operation := a.operation, object_size := a.object_size,
    size_bytes := a.size_bytes, concurrency := a.concurrency }

/-- The first aggregated row for a (target, size, concurrency) filter
within one operation, as `df[...].iloc[0]` inside the comparator loops. -/
def firstMatch (op_df : List AggRow) (tgt : String) (size : String) (conc : ℤ) :
    Option AggRow :=
  op_df.find? (fun r =>
    decide (r.target = tgt) && decide (r.object_size = size) && decide (r.concurrency = conc))

/-- One delta entry of `calculate_summary_stats` (the dict appended to
`deltas`). -/
structure DeltaEntry where
  operation : String
  size : String
  concurrency : ℤ
  delta : ℚ
  baseline_value : ℚ
  comparison_value : ℚ
deriving DecidableEq

/-- The throughput delta of a matched pair with positive baseline. -/
def deltaVal (b c : AggRow) : ℚ :=
  (c.throughput_mbps - b.throughput_mbps) / b.throughput_mbps * 100

/-- The rows of one operation (`op_df = df[df['operation'] == operation]`). -/
def opRows (df : List AggRow) (op : String) : List AggRow :=
  df.filter (fun r => decide (r.operation = op))

/-- The body of the innermost loop of `calculate_summary_stats`: a delta
entry when baseline and comparison rows both exist and the baseline
throughput is positive, nothing otherwise. -/
def deltaCell (op size : String) (conc : ℤ) (x y : Option AggRow) : List DeltaEntry :=
  match x, y with
  | some b, some c =>
    if 0 < b.throughput_mbps then
      [{ operation := op, size := size, concurrency := conc,
         delta := deltaVal b c,
         baseline_value := b.throughput_mbps,
         comparison_value := c.throughput_mbps }]
    else []
  | _, _ => []

/-- The delta-collection loops of `calculate_summary_stats`: for every
operation (first-appearance order), every object size and concurrency seen
in that operation's rows, look up the first baseline and comparison rows
and append a delta entry only when both exist and the baseline throughput
is positive. -/
def deltasOf (df : List AggRow) (bt ct : String) : List DeltaEntry :=
  (uniqFirst (df.map AggRow.operation)).flatMap (fun op =>
    (uniqFirst ((opRows df op).map AggRow.object_size)).flatMap (fun size =>
      (uniqFirst ((opRows df op).map AggRow.concurrency)).flatMap (fun conc =>
        deltaCell op size conc (firstMatch (opRows df op) bt size conc)
          (firstMatch (opRows df op) ct size conc))))

/-- The verdict classification of `calculate_summary_stats`; the source
renders these as strings (with the average percentage formatted into the
`Faster`/`Slower` text). -/
inductive Verdict where
  | insufficient
  | equivalent
  | faster
  | slower
deriving DecidableEq

/-- The summary returned by `calculate_summary_stats`.  String rendering of
the verdict and `verdict_class` are presentational and omitted. -/
structure SummaryStats where
  baseline : String
  comparison : String
  verdict : Verdict
  avg_delta : ℚ
  top_improvements : List DeltaEntry
  top_regressions : List DeltaEntry
deriving DecidableEq

/-- Source: `calculate_summary_stats(df, targets)` — collect deltas, sort
ascending, take the top regressions and improvements, average, classify. -/
def calculate_summary_stats (df : List AggRow) (targets : List String) :
    SummaryStats :=
  if targets.length < 2 then
    { baseline := targets.headD "N/A", comparison := "N/A",
      verdict := Verdict.insufficient, avg_delta := 0,
      top_improvements := [], top_regressions := [] }
  else
    let baseline_target := targets.getD 0 ""
    let comparison_target := targets.getD 1 ""
    let deltas := sortByQ DeltaEntry.delta (deltasOf df baseline_target comparison_target)
    let regressions := (deltas.filter (fun d => decide (d.delta < -10))).take 3
    let improvements :=
      (sortByQ (fun d => -d.delta) (deltas.filter (fun d => decide (10 < d.delta)))).take 3
    let avg_delta := if deltas = [] then 0 else (deltas.map DeltaEntry.delta).sum / deltas.length
    let verdict :=
      if |avg_delta| < 10 then Verdict.equivalent
      else if 10 < avg_delta then Verdict.faster
      else Verdict.slower
    { baseline := baseline_target, comparison := comparison_target,
      verdict := verdict, avg_delta := avg_delta,
      top_improvements := improvements, top_regressions := regressions }

/-- One row of a comparison table (`generate_comparison_tables`); the
source formats the throughput/latency numbers to strings for display,
which is presentational and kept numeric here. -/
structure CompRow where
  size : String
  concurrency : ℤ
  baseline_throughput : ℚ
  comparison_throughput : ℚ
  throughput_delta : ℚ
  baseline_p99 : ℚ
  comparison_p99 : ℚ
  latency_delta : ℚ
  baseline_errors : ℤ
  comparison_errors : ℤ
deriving DecidableEq

/-- The comparison rows of one operation: sizes in `size_bytes` order
(first-appearance among equal keys), concurrencies sorted ascending; a row
per matched pair, with each delta 0 when its baseline value is not
positive. -/
def compRowsOf (op_df : List AggRow) (bt ct : String) : List CompRow :=
  (uniqFirst ((sortByQ (fun r => (r.size_bytes : ℚ)) op_df).map AggRow.object_size)).flatMap
    (fun size =>
      (sortByQ (fun c : ℤ => (c : ℚ)) (uniqFirst (op_df.map AggRow.concurrency))).flatMap
        (fun conc =>
          match firstMatch op_df bt size conc, firstMatch op_df ct size conc with
          | some b, some c =>
            [{ size := size, concurrency := conc,
               baseline_throughput := b.throughput_mbps,
               comparison_throughput := c.throughput_mbps,
               throughput_delta :=
                 if 0 < b.throughput_mbps then deltaVal b c else 0,
               baseline_p99 := b.p99_latency_ms,
               comparison_p99 := c.p99_latency_ms,
               latency_delta :=
                 if 0 < b.p99_latency_ms then
                   (c.p99_latency_ms - b.p99_latency_ms) / b.p99_latency_ms * 100
                 else 0,
               baseline_errors := b.errors,
               comparison_errors := c.errors }]
          | _, _ => []))

/-- Source: `generate_comparison_tables(df, targets)` — empty when fewer
than two targets are listed, else one table per operation. -/
def generate_comparison_tables (df : List AggRow) (targets : List String) :
    List (String × List CompRow) :=
  if targets.length < 2 then []
  else
    let bt := targets.getD 0 ""
    let ct := targets.getD 1 ""
    (uniqFirst (df.map AggRow.operation)).map (fun op =>
      (op, compRowsOf (df.filter (fun r => decide (r.operation = op))) bt ct))

/-- Modelled from the spec: "the end of the JSON object is the position
where depth returns to 0 after having gone positive", read as the LAST such
position (which is what the source computes; the claim under test reads it
as the first).  Walks the text with the running depth, returning the last
index at which a right brace brings the depth to 0. -/
def specLastZero : List Char → Nat → Int → Option Nat
  | [], _, _ => none
  | c :: rest, i, depth =>
    match specLastZero rest (i + 1) (braceStep c depth) with
    | some j => some j
    | none => if c = rbrace ∧ braceStep c depth = 0 then some i else none

/-- Modelled from the spec: "the end of the JSON object is the position
where the brace depth FIRST returns to 0 after having gone positive" — the
claim's reading of the scan, for comparison with the source's `braceEnd`. -/
def specFirstZero : List Char → Nat → Int → Option Nat
  | [], _, _ => none
  | c :: rest, i, depth =>
    if c = rbrace ∧ braceStep c depth = 0 then some i
    else specFirstZero rest (i + 1) (braceStep c depth)

/-- Modelled from the spec: "a recovered document is treated as the v2
schema if and only if it is a mapping that contains a `total` key
(regardless of the value stored under that key)". -/
def claimIsV2 : JVal → Bool
  | JVal.jobj fields => !(jfind fields "total").isNone
  | _ => false

/-- Modelled from the spec: the claimed verdict delta set — one delta per
(operation, object_size, concurrency) key matched under both targets, equal
to `(comparison − baseline) / baseline * 100` and 0 when the baseline
throughput is 0, with no matched key omitted. -/
def specAllDeltas (df : List AggRow) (bt ct : String) : List ℚ :=
  (uniqFirst (df.map AggRow.operation)).flatMap (fun op =>
    (uniqFirst ((opRows df op).map AggRow.object_size)).flatMap (fun size =>
      (uniqFirst ((opRows df op).map AggRow.concurrency)).flatMap (fun conc =>
        match firstMatch (opRows df op) bt size conc,
            firstMatch (opRows df op) ct size conc with
        | some b, some c =>
          [if 0 < b.throughput_mbps then deltaVal b c else 0]
        | _, _ => [])))

/-- Modelled from the spec: the claimed verdict average over every matched
key. -/
def specVerdictAvg (df : List AggRow) (bt ct : String) : ℚ :=
  mean (specAllDeltas df bt ct)

/-! ### Concrete inputs used by the claim theorems -/

/-- The v2 document of the spec's worked example: `total.total_requests =
100`, `total.total_errors = 0`, `throughput.bytes = 104857600`,
`throughput.measure_duration_millis = 5000`, and a first-byte latency
block `average 20.5 / median 19 / p90 24 / p99 26` under the first client. -/
def docC3 : JVal := JVal.jobj [
  ("total", JVal.jobj [
    ("total_requests", JVal.jnum 100),
    ("total_errors", JVal.jnum 0),
    ("throughput", JVal.jobj [
      ("bytes", JVal.jnum 104857600),
      ("measure_duration_millis", JVal.jnum 5000)]),
    ("requests_by_client", JVal.jobj [
      ("client1", JVal.jarr [JVal.jobj [
        ("single_sized_requests", JVal.jobj [
          ("first_byte", JVal.jobj [
            ("average_millis", JVal.jnum 20.5),
            ("median_millis", JVal.jnum 19),
            ("p90_millis", JVal.jnum 24),
            ("p99_millis", JVal.jnum 26)])])]])])])]

/-- The spec's worked-example output record. -/
def recC3 : MetricsRecord :=
  { throughput_mbps := 20, ops_per_sec := 20,
    avg_latency_ms := 20.5, p50_latency_ms := 19,
    p90_latency_ms := 24, p99_latency_ms := 26,
    total_operations := 100, errors := 0, error_rate := 0 }

/-- A JSON-decodable v2 document whose `total` field is the number 5: the
source raises `AttributeError` at `total.get('throughput')`. -/
def docTotalNum : JVal := JVal.jobj [("total", JVal.jnum 5)]

/-- A JSON-decodable legacy flat record whose metric field holds a
non-numeric string: the source raises `ValueError` at `float('fast')`. -/
def docLegacyStr : JVal := JVal.jobj [("throughput_mb", JVal.jstr "fast")]

/-- A mapping that contains a `total` key whose stored value is `null`:
`data.get('total') is not None` is false, so the source treats it as a
legacy record. -/
def docTotalNull : JVal :=
  JVal.jobj [("total", JVal.jnull), ("throughput_mb", JVal.jnum 5)]

/-- A legacy flat record carrying `error_rate = 2` and no `operations`
field. -/
def docRate2 : JVal := JVal.jobj [("error_rate", JVal.jnum 2)]

/-- The all-zero metrics record (every documented default). -/
def zeroRecord : MetricsRecord :=
  { throughput_mbps := 0, ops_per_sec := 0,
    avg_latency_ms := 0, p50_latency_ms := 0,
    p90_latency_ms := 0, p99_latency_ms := 0,
    total_operations := 0, errors := 0, error_rate := 0 }

/-- Raw text holding one valid JSON object followed by a second, complete
JSON object and trailing garbage.  The direct parse fails (extra data), the
brace scan ends at the second object's closing brace, the reparse fails
again, and the recoverer returns nothing. -/
def rawTwoObjs : List Char :=
  "junk \x7b\x22a\x22:true\x7d \x7b\x22b\x22:true\x7d x".toList

/-- Raw text holding one valid JSON object followed by a truncated second
fragment whose braces never close: here the last depth-zero position is the
first object's closing brace and recovery succeeds. -/
def rawTruncated : List Char :=
  "junk \x7b\x22a\x22:true\x7d \x7b\x22b\x22:".toList

/-- The first well-formed object inside `rawTwoObjs` and `rawTruncated`. -/
def objA : JVal := JVal.jobj [("a", JVal.jbool true)]

/-- The nine metric field names of the legacy flat-record schema. -/
def legacyKeys : List String :=
  ["throughput_mb", "ops_per_sec", "latency_avg_ms", "latency_p50_ms",
   "latency_p90_ms", "latency_p99_ms", "operations", "errors", "error_rate"]

/-- A summary row template for the aggregation examples. -/
def baseRow : Row :=
  { target := "aws", operation := "get", object_size := "1MiB",
    size_bytes := 1048576, concurrency := 8, iteration := 1,
    throughput_mbps := 0, ops_per_sec := 0, avg_latency_ms := 0,
    p50_latency_ms := 0, p90_latency_ms := 0, p99_latency_ms := 0,
    total_operations := 0, errors := 0, error_rate := 0 }

/-- Three iterations of one condition with throughputs 10, 20, 30 and 100
operations each. -/
def rows3 : List Row :=
  [{ baseRow with iteration := 1, throughput_mbps := 10, total_operations := 100 },
   { baseRow with iteration := 2, throughput_mbps := 20, total_operations := 100 },
   { baseRow with iteration := 3, throughput_mbps := 30, total_operations := 100 }]

/-- An aggregated-row template for the comparator examples. -/
def baseAgg : AggRow :=
  { target := "a", operation := "get", object_size := "1MiB",
    size_bytes := 1048576, concurrency := 8,
    throughput_mbps := 0, ops_per_sec := 0, avg_latency_ms := 0,
    p50_latency_ms := 0, p90_latency_ms := 0, p99_latency_ms := 0,
    total_operations := 0, errors := 0, error_rate := 0 }

/-- Two conditions matched under targets `a` and `b`; the first condition's
baseline throughput is 0, the second has baseline 10 and comparison 20. -/
def df4 : List AggRow :=
  [{ baseAgg with object_size := "1KiB", size_bytes := 1024, throughput_mbps := 0 },
   { baseAgg with target := "b", object_size := "1KiB", size_bytes := 1024, throughput_mbps := 5 },
   { baseAgg with throughput_mbps := 10 },
   { baseAgg with target := "b", throughput_mbps := 20 }]

/-- A single-target aggregated data set with positive throughput. -/
def df1 : List AggRow := [{ baseAgg with throughput_mbps := 40, p99_latency_ms := 26 }]

/-- A segment with no latency data at all: the inner loop passes over it. -/
def passSeg : JVal := JVal.jobj []

/-- A segment exposing a first-byte block with average 1 ms. -/
def foundSeg : JVal := JVal.jobj [
  ("single_sized_requests", JVal.jobj [
    ("first_byte", JVal.jobj [("average_millis", JVal.jnum 1)])])]

/-! ### Helper lemmas -/

theorem obind_def {A B : Type} (x : Option A) (f : A → Option B) :
    (x >>= f) = Option.bind x f := rfl

theorem mem_uniqFirstAux {A : Type} [DecidableEq A] (x : A) :
    ∀ (l seen : List A), x ∈ uniqFirstAux seen l ↔ x ∈ l ∧ x ∉ seen
  | [], seen => by simp [uniqFirstAux]
  | y :: ys, seen => by
    by_cases h : y ∈ seen
    · rw [uniqFirstAux, if_pos h, mem_uniqFirstAux x ys seen]
      constructor
      · exact fun p => ⟨List.mem_cons_of_mem y p.1, p.2⟩
      · rintro ⟨hy, hns⟩
        rcases List.mem_cons.mp hy with rfl | hy2
        · exact absurd h hns
        · exact ⟨hy2, hns⟩
    · rw [uniqFirstAux, if_neg h]
      constructor
      · intro hx
        rcases List.mem_cons.mp hx with rfl | hx2
        · exact ⟨List.mem_cons_self x ys, h⟩
        · obtain ⟨hm, hns⟩ := (mem_uniqFirstAux x ys (y :: seen)).mp hx2
          exact ⟨List.mem_cons_of_mem y hm,
            fun hxs => hns (List.mem_cons_of_mem y hxs)⟩
      · rintro ⟨hy, hns⟩
        rcases List.mem_cons.mp hy with rfl | hy2
        · exact List.mem_cons_self x _
        · by_cases hxy : x = y
          · subst hxy
            exact List.mem_cons_self x _
          · refine List.mem_cons_of_mem y
              ((mem_uniqFirstAux x ys (y :: seen)).mpr ⟨hy2, ?_⟩)
            intro hmem
            rcases List.mem_cons.mp hmem with h1 | h2
            · exact hxy h1
            · exact hns h2

theorem mem_uniqFirst {A : Type} [DecidableEq A] (x : A) (l : List A) :
    x ∈ uniqFirst l ↔ x ∈ l := by
  simp [uniqFirst, mem_uniqFirstAux]

theorem nodup_uniqFirstAux {A : Type} [DecidableEq A] :
    ∀ (l seen : List A), (uniqFirstAux seen l).Nodup
  | [], seen => by simp [uniqFirstAux]
  | y :: ys, seen => by
    by_cases h : y ∈ seen
    · simpa only [uniqFirstAux, if_pos h] using nodup_uniqFirstAux ys seen
    · simp only [uniqFirstAux, if_neg h, List.nodup_cons]
      refine ⟨fun hy => ?_, nodup_uniqFirstAux ys (y :: seen)⟩
      exact ((mem_uniqFirstAux y ys (y :: seen)).mp hy).2 (List.mem_cons_self y seen)

theorem nodup_uniqFirst {A : Type} [DecidableEq A] (l : List A) :
    (uniqFirst l).Nodup := nodup_uniqFirstAux l []

theorem insertByQ_perm {A : Type} (f : A → ℚ) (x : A) :
    ∀ l : List A, (insertByQ f x l).Perm (x :: l)
  | [] => List.Perm.refl _
  | y :: ys => by
    by_cases h : f x ≤ f y
    · simp [insertByQ, h]
    · simp only [insertByQ, if_neg h]
      exact ((insertByQ_perm f x ys).cons y).trans (List.Perm.swap x y ys)

theorem sortByQ_perm {A : Type} (f : A → ℚ) :
    ∀ l : List A, (sortByQ f l).Perm l
  | [] => List.Perm.refl _
  | y :: ys =>
    (insertByQ_perm f y (sortByQ f ys)).trans ((sortByQ_perm f ys).cons y)

theorem sortByQ_length {A : Type} (f : A → ℚ) (l : List A) :
    (sortByQ f l).length = l.length := (sortByQ_perm f l).length_eq

theorem sortByQ_map_sum {A : Type} (f : A → ℚ) (g : A → ℚ) (l : List A) :
    ((sortByQ f l).map g).sum = (l.map g).sum :=
  List.Perm.sum_eq (List.Perm.map g (sortByQ_perm f l))

theorem braceEndAux_spec :
    ∀ (s : List Char) (i : Nat) (depth e : Int),
      braceEndAux s i depth e =
        ((specLastZero s i depth).map (fun j => (j : Int))).getD e
  | [], _, _, _ => rfl
  | c :: rest, i, depth, e => by
    rw [braceEndAux, specLastZero,
      braceEndAux_spec rest (i + 1) (braceStep c depth)]
    cases h : specLastZero rest (i + 1) (braceStep c depth) with
    | some j => simp
    | none =>
      by_cases hc : c = rbrace ∧ braceStep c depth = 0
      · rw [if_pos hc, if_pos hc]
        try simp
      · rw [if_neg hc, if_neg hc]
        try simp

theorem braceEnd_spec (s : List Char) :
    braceEnd s = ((specLastZero s 0 0).map (fun j => (j : Int))).getD (-1) :=
  braceEndAux_spec s 0 0 (-1)

theorem findOpen_drop :
    ∀ (s : List Char) (i : Nat), findOpen s = some i → ∃ t, s.drop i = lbrace :: t
  | [], i => by simp [findOpen]
  | c :: rest, i => by
    rw [findOpen]
    by_cases h : c = lbrace
    · rw [if_pos h]
      intro hi
      obtain rfl : (0 : Nat) = i := Option.some.inj hi
      exact ⟨rest, by subst h; rfl⟩
    · rw [if_neg h]
      intro hi
      rw [Option.map_eq_some'] at hi
      obtain ⟨j, hj, rfl⟩ := hi
      simpa using findOpen_drop rest j hj

theorem dropWs_lbrace (t : List Char) : dropWs (lbrace :: t) = lbrace :: t := by
  have h : isWsC lbrace = false := rfl
  simp [dropWs, h]

theorem parseJVal_lbrace_obj (fuel : Nat) (t : List Char) (v : JVal) (r : List Char)
    (h : parseJVal fuel (lbrace :: t) = some (v, r)) : ∃ fs, v = JVal.jobj fs := by
  cases fuel with
  | zero => exact absurd h (by simp [parseJVal])
  | succ fuel =>
    simp only [parseJVal, dropWs_lbrace, eq_self_iff_true, if_true,
      Option.map_eq_some', Prod.mk.injEq] at h
    obtain ⟨p, _, h1, _⟩ := h
    exact ⟨p.1, h1.symm⟩

theorem jloads_lbrace_obj (t : List Char) (v : JVal)
    (h : jloads (lbrace :: t) = some v) : ∃ fs, v = JVal.jobj fs := by
  rw [jloads] at h
  cases hp : parseJVal ((lbrace :: t).length + 1) (lbrace :: t) with
  | none => rw [hp] at h; exact absurd h (by simp)
  | some p =>
    obtain ⟨pv, pr⟩ := p
    rw [hp] at h
    by_cases hw : dropWs pr = []
    · simp only [hw, if_true] at h
      have hv : pv = v := Option.some.inj h
      exact hv ▸ parseJVal_lbrace_obj _ t pv pr hp
    · simp [hw] at h

/-! ### Claim theorems -/

/-- C3: for the spec's worked v2 example — `total.total_requests = 100`,
`total.total_errors = 0`, `throughput.bytes = 104857600`,
`throughput.measure_duration_millis = 5000`, and a first-byte latency
block `average 20.5 / median 19 / p90 24 / p99 26` — extraction yields
`throughput_mbps = 20`, `ops_per_sec = 20`, `avg_latency_ms = 20.5`,
`p99_latency_ms = 26` and `error_rate = 0`, both through `parse_warp_v2`
and through the full schema dispatch. -/
theorem v2_worked_example :
    parse_warp_v2 docC3 "get" = some recC3 ∧
    extractMetrics docC3 "get" = some (ExtractOutcome.record recC3) := by
  constructor <;> rfl

/-- C10: whenever the Recoverer returns a value, that value is a JSON
object (a mapping), because both parsing attempts start at a left brace;
consequently the legacy branch that would take the first element of a
sequence (`legacyFirst`) is the identity on every recovered document. -/
theorem recovered_value_is_object (content : List Char) (v : JVal)
    (h : extract_json_from_raw content = some v) :
    (∃ fs, v = JVal.jobj fs) ∧ legacyFirst v = v := by
  cases hf : findOpen content with
  | none =>
    simp only [extract_json_from_raw, hf] at h
    exact absurd h (by simp)
  | some start =>
    simp only [extract_json_from_raw, hf] at h
    obtain ⟨t, ht⟩ := findOpen_drop content start hf
    rw [ht] at h
    cases hj : jloads (lbrace :: t) with
    | some w =>
      simp only [hj, Option.some.injEq] at h
      subst h
      obtain ⟨fs, hfs⟩ := jloads_lbrace_obj t _ hj
      exact ⟨⟨fs, hfs⟩, by rw [hfs]; rfl⟩
    | none =>
      simp only [hj] at h
      by_cases he : 0 ≤ braceEnd (lbrace :: t)
      · rw [if_pos he, List.take_succ_cons] at h
        obtain ⟨fs, hfs⟩ := jloads_lbrace_obj _ v h
        exact ⟨⟨fs, hfs⟩, by rw [hfs]; rfl⟩
      · rw [if_neg he] at h
        exact absurd h (by simp)

/-- Witness for C10 at the concrete blob `junk {"a":true} {"b":`. -/
theorem recovered_value_is_object_witness :
    (∃ fs, objA = JVal.jobj fs) ∧ legacyFirst objA = objA :=
  recovered_value_is_object rawTruncated objA (by rfl)

/-- C2 counterexample: the text `junk {"a":true} {"b":true} x` contains a
valid JSON object (`{"a":true}`, recoverable under the claim's
first-return-to-zero scan, whose end would be index 9 of the substring)
followed by trailing non-JSON, yet the Recoverer returns nothing: the
source scan keeps the LAST depth-zero position, so the reparse spans both
objects and fails again. -/
theorem recover_first_object_counterexample :
    extract_json_from_raw rawTwoObjs = none ∧
    specFirstZero (rawTwoObjs.drop 5) 0 0 = some 9 ∧
    jloads ((rawTwoObjs.drop 5).take 10) = some objA := by
  refine ⟨?_, ?_, ?_⟩ <;> rfl

/-- C2 amended: the end position of the brace-balance fallback is the LAST
position at which the depth returns to 0 (not the first); consequently the
first well-formed object is recovered exactly when the trailing content
never rebalances the depth — as with a truncated second fragment. -/
theorem brace_scan_last_zero :
    (∀ s : List Char,
      braceEnd s = ((specLastZero s 0 0).map (fun j => (j : Int))).getD (-1)) ∧
    extract_json_from_raw rawTruncated = some objA :=
  ⟨braceEnd_spec, by rfl⟩

theorem opure_def {A : Type} (a : A) : (pure a : Option A) = some a := rfl

theorem defaulted_get (fields : List (String × JVal)) (k : String)
    (h : jfind fields k = none ∨ jfind fields k = some JVal.jnull) :
    pyOr (jlookupD fields k (JVal.jnum 0)) (JVal.jnum 0) = JVal.jnum 0 := by
  rcases h with h | h <;> simp [jlookupD, h, pyOr, pyTruthy]

/-- C1 counterexample: extraction is not total.  The JSON-decodable v2
document `{"total": 5}` raises (`total.get('throughput')` on an `int`) and
the JSON-decodable legacy record `{"throughput_mb": "fast"}` raises
(`float('fast')`); `none` models the raised exception. -/
theorem extract_raises_counterexample :
    extractMetrics docTotalNum "get" = none ∧
    extractMetrics docLegacyStr "get" = none := by
  constructor <;> rfl

/-- C1 amended: extraction does not raise — and produces a record in which
every field carries its documented default 0 — whenever the read fields
are absent or `null`: for a legacy flat record with every metric field
absent or `null`, and for the minimal v2 document `{"total": {}}`.
(Truthy non-mapping block values and non-numeric string fields raise, per
the counterexample.) -/
theorem extract_defaults_amended :
    (∀ (fields : List (String × JVal)) (op : String),
      isNull (jlookup fields "total") = true →
      (∀ k ∈ legacyKeys, jfind fields k = none ∨ jfind fields k = some JVal.jnull) →
      extractMetrics (JVal.jobj fields) op = some (ExtractOutcome.record zeroRecord)) ∧
    (∀ op : String,
      extractMetrics (JVal.jobj [("total", jobjE)]) op =
        some (ExtractOutcome.record zeroRecord)) := by
  constructor
  · intro fields op h1 h2
    have hv2 : isV2Doc (JVal.jobj fields) = false := by simp [isV2Doc, h1]
    rw [extractMetrics, if_neg (by simp [hv2])]
    have e1 := defaulted_get fields "throughput_mb" (h2 _ (by simp [legacyKeys]))
    have e2 := defaulted_get fields "ops_per_sec" (h2 _ (by simp [legacyKeys]))
    have e3 := defaulted_get fields "latency_avg_ms" (h2 _ (by simp [legacyKeys]))
    have e4 := defaulted_get fields "latency_p50_ms" (h2 _ (by simp [legacyKeys]))
    have e5 := defaulted_get fields "latency_p90_ms" (h2 _ (by simp [legacyKeys]))
    have e6 := defaulted_get fields "latency_p99_ms" (h2 _ (by simp [legacyKeys]))
    have e7 := defaulted_get fields "operations" (h2 _ (by simp [legacyKeys]))
    have e8 := defaulted_get fields "errors" (h2 _ (by simp [legacyKeys]))
    have e9 := defaulted_get fields "error_rate" (h2 _ (by simp [legacyKeys]))
    show legacyExtract (JVal.jobj fields) = some (ExtractOutcome.record zeroRecord)
    simp only [legacyExtract, e1, e2, e3, e4, e5, e6, e7, e8, e9]
    rfl
  · intro op
    rfl

/-- Witness for C1 amended at the empty flat record. -/
theorem extract_defaults_witness :
    extractMetrics (JVal.jobj []) "get" = some (ExtractOutcome.record zeroRecord) :=
  extract_defaults_amended.1 [] "get" rfl (fun _ _ => Or.inl rfl)

/-- C5 counterexample: the mapping `{"total": null, "throughput_mb": 5}`
contains a `total` key, so the claim classifies it as v2; the source's
condition `data.get('total') is not None` is false, so it is treated as a
legacy record (its `throughput_mb` is read), and a v2 treatment would have
produced the all-zero record instead. -/
theorem schema_dispatch_total_null :
    claimIsV2 docTotalNull = true ∧
    isV2Doc docTotalNull = false ∧
    extractMetrics docTotalNull "get" =
      some (ExtractOutcome.record { zeroRecord with throughput_mbps := 5 }) ∧
    parse_warp_v2 docTotalNull "get" = some zeroRecord := by
  refine ⟨rfl, rfl, ?_, ?_⟩ <;> rfl

/-- C5 amended: a document is treated as v2 iff it is a mapping whose
`total` key holds a non-`null` value; otherwise the legacy branch runs on
the document (or the first element of a non-empty sequence), and a
document whose legacy representative is not a mapping is skipped. -/
theorem schema_dispatch_amended :
    (∀ fields, isV2Doc (JVal.jobj fields) = !isNull (jlookup fields "total")) ∧
    (∀ v, isObj v = false → isV2Doc v = false) ∧
    (∀ data op, isV2Doc data = false →
      extractMetrics data op = legacyExtract (legacyFirst data)) ∧
    (∀ data op, isV2Doc data = true →
      extractMetrics data op = (parse_warp_v2 data op).map ExtractOutcome.record) ∧
    (∀ data op, isV2Doc data = false → isObj (legacyFirst data) = false →
      extractMetrics data op = some ExtractOutcome.skipped) := by
  refine ⟨fun fields => rfl, ?_, ?_, ?_, ?_⟩
  · intro v hv
    cases v <;> simp_all [isObj, isV2Doc]
  · intro data op h
    rw [extractMetrics, if_neg (by simp [h])]
  · intro data op h
    rw [extractMetrics, if_pos (by simp [h])]
  · intro data op h1 h2
    rw [extractMetrics, if_neg (by simp [h1])]
    cases hL : legacyFirst data <;> simp_all [legacyExtract, isObj, opure_def]

/-- Witness for C5 amended, exercising each dispatch branch at concrete
documents. -/
theorem schema_dispatch_witness :
    isV2Doc (JVal.jnum 7) = false ∧
    extractMetrics docTotalNull "get" = legacyExtract (legacyFirst docTotalNull) ∧
    extractMetrics docTotalNum "get" =
      (parse_warp_v2 docTotalNum "get").map ExtractOutcome.record ∧
    extractMetrics (JVal.jstr "zz") "get" = some ExtractOutcome.skipped :=
  ⟨schema_dispatch_amended.2.1 _ rfl,
   schema_dispatch_amended.2.2.1 docTotalNull "get" rfl,
   schema_dispatch_amended.2.2.2.1 docTotalNum "get" rfl,
   schema_dispatch_amended.2.2.2.2 (JVal.jstr "zz") "get" rfl rfl⟩

/-- C9 counterexample: the legacy record `{"error_rate": 2}` produces a
MetricsRecord with `total_operations = 0` yet `error_rate = 2`: the legacy
branch copies `error_rate` verbatim, so it is neither `errors /
total_operations` (= 0 here per the claim) nor within `[0, 1]`. -/
theorem error_rate_legacy_counterexample :
    extractMetrics docRate2 "get" =
      some (ExtractOutcome.record { zeroRecord with error_rate := 2 }) ∧
    ({ zeroRecord with error_rate := 2 } : MetricsRecord).total_operations = 0 ∧
    ¬ (({ zeroRecord with error_rate := 2 } : MetricsRecord).error_rate ≤ 1) := by
  refine ⟨?_, rfl, by norm_num [zeroRecord]⟩
  rfl

/-- C9 amended: every record produced by the v2 extractor satisfies
`error_rate = errors / total_operations` when `total_operations ≠ 0` and
`error_rate = 0` otherwise, and lies in `[0, 1]` whenever
`0 ≤ errors ≤ total_operations`; legacy records copy `error_rate` directly
from the source field with no such guarantee (per the counterexample). -/
theorem error_rate_v2_amended (data : JVal) (op : String) (r : MetricsRecord)
    (h : parse_warp_v2 data op = some r) :
    r.error_rate =
      (if r.total_operations = 0 then 0
        else (r.errors : ℚ) / (r.total_operations : ℚ)) ∧
    (0 ≤ r.errors → r.errors ≤ r.total_operations →
      0 ≤ r.error_rate ∧ r.error_rate ≤ 1) := by
  rw [parse_warp_v2] at h
  simp only [obind_def, opure_def, Option.bind_eq_some, Option.some.injEq] at h
  obtain ⟨tv, htv, bv, hbv, thr, hthr, ds, hds, byts, hbyts, tr, htr, te, hte,
    ov, hov, rbc, hrbc, lat, hlat, hrec⟩ := h
  subst hrec
  constructor
  · by_cases h0 : tr = 0 <;> simp [h0]
  · intro hge hle
    by_cases h0 : tr = 0
    · simp [h0]
    · have hposQ : (0 : ℚ) < (tr : ℚ) := by
        exact_mod_cast lt_of_le_of_ne (hge.trans hle) (Ne.symm h0)
      have h1 : (0 : ℚ) ≤ (te : ℚ) := by exact_mod_cast hge
      have h2 : (te : ℚ) ≤ (tr : ℚ) := by exact_mod_cast hle
      constructor
      · simpa [h0] using div_nonneg h1 hposQ.le
      · simpa [h0] using (div_le_one hposQ).mpr h2

/-- Witness for C9 amended at the worked v2 example. -/
theorem error_rate_v2_witness :
    recC3.error_rate =
      (if recC3.total_operations = 0 then 0
        else (recC3.errors : ℚ) / (recC3.total_operations : ℚ)) ∧
    (0 ≤ recC3.errors → recC3.errors ≤ recC3.total_operations →
      0 ≤ recC3.error_rate ∧ recC3.error_rate ≤ 1) :=
  error_rate_v2_amended docC3 "get" recC3 (by rfl)

theorem obind_some {A B : Type} (a : A) (f : A → Option B) :
    Option.bind (some a) f = f a := rfl

theorem scanSegs_skip_pass :
    ∀ (pre : List JVal), (∀ s ∈ pre, segProbe s = some SegScan.pass) →
      ∀ rest, scanSegs (pre ++ rest) = scanSegs rest
  | [], _, rest => rfl
  | p :: pre, h, rest => by
    have hp : segProbe p = some SegScan.pass := h p (List.mem_cons_self p pre)
    have hrec := scanSegs_skip_pass pre
      (fun s hs => h s (List.mem_cons_of_mem p hs)) rest
    simp only [List.cons_append, scanSegs, obind_def, hp, obind_some]
    exact hrec

/-- C7: v2 latency extraction samples exactly one segment.  The outer
client loop breaks unconditionally, so the latency result of a client list
never depends on any client after the first; within the first client, the
first segment exposing latency data supplies the values and scanning stops
(later segments are ignored); and the aggregate-level client breakdown is
consulted only when the operation-specific `requests_by_client` is not
truthy. -/
theorem latency_first_segment_sampling :
    (∀ (nm : String) (segs : JVal) (rest rest2 : List (String × JVal)),
      latOfClients ((nm, segs) :: rest) = latOfClients ((nm, segs) :: rest2)) ∧
    (∀ (pre : List JVal) (seg : JVal) (post post2 : List JVal) (avg p50 p90 p99 : ℚ),
      (∀ s ∈ pre, segProbe s = some SegScan.pass) →
      segProbe seg = some (SegScan.found avg p50 p90 p99) →
      scanSegs (pre ++ seg :: post) = some (avg, p50, p90, p99) ∧
      scanSegs (pre ++ seg :: post) = scanSegs (pre ++ seg :: post2)) ∧
    (∀ (op_block total c1 : JVal), dget op_block "requests_by_client" = some c1 →
      pyTruthy c1 = true → chooseRbc op_block total = some c1) ∧
    (∀ (op_block total c1 : JVal), dget op_block "requests_by_client" = some c1 →
      pyTruthy c1 = false →
      chooseRbc op_block total =
        (dget total "requests_by_client").map (fun c2 => pyOr c2 jobjE)) := by
  refine ⟨?_, ?_, ?_, ?_⟩
  · intro nm segs rest rest2
    rfl
  · intro pre seg post post2 avg p50 p90 p99 hpre hseg
    have key : ∀ post3 : List JVal,
        scanSegs (pre ++ seg :: post3) = some (avg, p50, p90, p99) := by
      intro post3
      rw [scanSegs_skip_pass pre hpre (seg :: post3)]
      simp [scanSegs, obind_def, hseg, obind_some]
    exact ⟨key post, (key post).trans (key post2).symm⟩
  · intro ob tt c1 h1 htr
    simp [chooseRbc, obind_def, h1, obind_some, htr]
  · intro ob tt c1 h1 hfl
    simp only [chooseRbc, obind_def, h1, obind_some, hfl, Bool.false_eq_true,
      if_false]
    cases h2 : dget tt "requests_by_client" <;> simp [h2]

/-- Witness for C7 at concrete segments and breakdown blocks. -/
theorem latency_sampling_witness :
    scanSegs ([passSeg] ++ foundSeg :: [passSeg]) = some (1, 0, 0, 0) ∧
    chooseRbc (JVal.jobj [("requests_by_client", JVal.jobj [("c1", passSeg)])]) jobjE =
      some (JVal.jobj [("c1", passSeg)]) ∧
    chooseRbc jobjE (JVal.jobj [("requests_by_client", JVal.jnum 3)]) =
      (dget (JVal.jobj [("requests_by_client", JVal.jnum 3)])
        "requests_by_client").map (fun c2 => pyOr c2 jobjE) :=
  ⟨(latency_first_segment_sampling.2.1 [passSeg] foundSeg [passSeg] [] 1 0 0 0
      (by
        intro s hs
        rw [List.mem_singleton.mp hs]
        rfl)
      (by rfl)).1,
   latency_first_segment_sampling.2.2.1 _ jobjE _ rfl (by rfl),
   latency_first_segment_sampling.2.2.2 jobjE _ _ rfl rfl⟩

/-- C8 counterexample: with the duplicated target list `["a", "a"]` — one
distinct target — the comparator does not return the empty table and the
neutral placeholder: the length check `len(targets) < 2` passes, the
single target is compared against itself, the table is non-empty and the
verdict is the computed `Equivalent Performance`, not the `Insufficient
data` placeholder. -/
theorem comparator_duplicate_targets :
    uniqFirst ["a", "a"] = ["a"] ∧
    generate_comparison_tables df1 ["a", "a"] ≠ [] ∧
    (calculate_summary_stats df1 ["a", "a"]).verdict = Verdict.equivalent ∧
    (calculate_summary_stats df1 ["a", "a"]).comparison = "a" := by
  refine ⟨by rfl, ?_, ?_, ?_⟩
  · intro hcon
    exact absurd hcon (by decide)
  · rfl
  · rfl

/-- C8 amended: when the supplied target LIST has fewer than two entries
(the source checks the list length, not distinctness), both comparator
functions are total no-ops: the table set is empty and the summary is the
neutral placeholder with zero average delta and empty top lists; a
duplicated single target instead passes the check and is compared against
itself. -/
theorem comparator_short_targets_amended (df : List AggRow) (targets : List String)
    (h : targets.length < 2) :
    generate_comparison_tables df targets = [] ∧
    calculate_summary_stats df targets =
      { baseline := targets.headD "N/A", comparison := "N/A",
        verdict := Verdict.insufficient, avg_delta := 0,
        top_improvements := [], top_regressions := [] } := by
  constructor
  · rw [generate_comparison_tables, if_pos h]
  · rw [calculate_summary_stats, if_pos h]

/-- Witness for C8 amended at a one-element target list. -/
theorem comparator_short_targets_witness :
    generate_comparison_tables df1 ["solo"] = [] ∧
    calculate_summary_stats df1 ["solo"] =
      { baseline := "solo", comparison := "N/A",
        verdict := Verdict.insufficient, avg_delta := 0,
        top_improvements := [], top_regressions := [] } :=
  comparator_short_targets_amended df1 ["solo"] (by decide)

theorem mem_deltaCell (op size : String) (conc : ℤ) (x y : Option AggRow)
    (e : DeltaEntry) :
    e ∈ deltaCell op size conc x y ↔
      ∃ b c, x = some b ∧ y = some c ∧ 0 < b.throughput_mbps ∧
        e = { operation := op, size := size, concurrency := conc,
              delta := deltaVal b c,
              baseline_value := b.throughput_mbps,
              comparison_value := c.throughput_mbps } := by
  cases x with
  | none => cases y <;> simp [deltaCell]
  | some b =>
    cases y with
    | none => simp [deltaCell]
    | some c =>
      by_cases hp : 0 < b.throughput_mbps <;> simp [deltaCell, hp]

/-- C4 counterexample: under targets `a` (baseline) and `b`, `df4` holds
two matched conditions, one with baseline throughput 0 and one with
baseline 10 / comparison 20.  The claim's average over every matched key
(0 for the zero baseline) is 50, but the source's verdict average is 100:
the zero-baseline key is omitted from the delta set, not averaged as 0. -/
theorem verdict_average_counterexample :
    (calculate_summary_stats df4 ["a", "b"]).avg_delta = 100 ∧
    specVerdictAvg df4 "a" "b" = 50 ∧
    (deltasOf df4 "a" "b").length = 1 ∧
    (specAllDeltas df4 "a" "b").length = 2 :=
  ⟨by decide, by decide, by decide, by decide⟩

/-- C4 amended: the verdict's delta set contains exactly one entry per
enumerated (operation, object_size, concurrency) key whose baseline and
comparison rows both exist AND whose baseline throughput is positive, with
value `(comparison − baseline) / baseline * 100`; matched keys with zero
baseline throughput are omitted from the verdict average (the comparison
table, separately, reports their delta as 0), and `avg_delta` is the
arithmetic mean over exactly this delta set. -/
theorem verdict_deltas_amended :
    (∀ (df : List AggRow) (bt ct : String) (e : DeltaEntry),
      e ∈ deltasOf df bt ct ↔
        ∃ op ∈ uniqFirst (df.map AggRow.operation),
          ∃ size ∈ uniqFirst ((opRows df op).map AggRow.object_size),
            ∃ conc ∈ uniqFirst ((opRows df op).map AggRow.concurrency),
              ∃ b c,
                firstMatch (opRows df op) bt size conc = some b ∧
                firstMatch (opRows df op) ct size conc = some c ∧
                0 < b.throughput_mbps ∧
                e = { operation := op, size := size, concurrency := conc,
                      delta := deltaVal b c,
                      baseline_value := b.throughput_mbps,
                      comparison_value := c.throughput_mbps }) ∧
    (∀ (df : List AggRow) (bt ct : String) (rest : List String),
      (calculate_summary_stats df (bt :: ct :: rest)).avg_delta =
        mean ((deltasOf df bt ct).map DeltaEntry.delta)) := by
  constructor
  · intro df bt ct e
    simp only [deltasOf, List.mem_flatMap, mem_deltaCell]
  · intro df bt ct rest
    rw [calculate_summary_stats,
      if_neg (by simp only [List.length_cons]; omega)]
    simp only [List.getD_cons_zero, List.getD_cons_succ]
    rw [mean]
    by_cases h0 : deltasOf df bt ct = []
    · simp [h0, sortByQ]
    · have hs : sortByQ DeltaEntry.delta (deltasOf df bt ct) ≠ [] := by
        intro hc
        have hlen := sortByQ_length DeltaEntry.delta (deltasOf df bt ct)
        rw [hc] at hlen
        exact h0 (List.length_eq_zero.mp hlen.symm)
      have hm : (deltasOf df bt ct).map DeltaEntry.delta ≠ [] := by
        simp [h0]
      rw [if_neg hs, if_neg hm, sortByQ_map_sum, sortByQ_length]
      simp [List.length_map]

theorem filter_map_single {A B : Type} (g : A → B) (p : B → Bool) :
    ∀ (l : List A), l.Nodup → ∀ k, k ∈ l →
      (∀ x ∈ l, (p (g x) = true ↔ x = k)) →
      (l.map g).filter p = [g k]
  | [], _, k, hk, _ => absurd hk (List.not_mem_nil k)
  | x :: xs, hnd, k, hk, hiff => by
    rw [List.nodup_cons] at hnd
    by_cases hxk : x = k
    · subst hxk
      have hpx : p (g x) = true := (hiff x (List.mem_cons_self x xs)).mpr rfl
      have hrest : (xs.map g).filter p = [] := by
        rw [List.filter_eq_nil_iff]
        intro b hb
        rw [List.mem_map] at hb
        obtain ⟨y, hy, rfl⟩ := hb
        have hne : ¬(y = x) := fun he => hnd.1 (he ▸ hy)
        exact fun hp => hne ((hiff y (List.mem_cons_of_mem x hy)).mp hp)
      rw [List.map_cons, List.filter_cons_of_pos hpx, hrest]
    · have hkxs : k ∈ xs := by
        rcases List.mem_cons.mp hk with h | h
        · exact absurd h.symm hxk
        · exact h
      have hpx : p (g x) = false := by
        cases hb : p (g x) with
        | false => rfl
        | true => exact absurd ((hiff x (List.mem_cons_self x xs)).mp hb) hxk
      rw [List.map_cons, List.filter_cons_of_neg (by simp [hpx])]
      exact filter_map_single g p xs hnd.2 k hkxs
        (fun y hy => hiff y (List.mem_cons_of_mem x hy))

/-- C6: aggregation groups summary rows by (target, operation, object_size,
concurrency) — the source's extra `size_bytes` group column is a function
of `object_size` (`hdep`), so the partition is the same — and reduces each
group via `reduceGroup`: median for the six rate/latency fields, sum for
`total_operations` and `errors`, mean for `error_rate`; exactly one
aggregated row is emitted per condition present in the input. -/
theorem aggregation_groups_reduces (f : String → ℤ) (rows : List Row)
    (tg op sz : String) (cc : ℤ)
    (hdep : ∀ r ∈ rows, r.size_bytes = f r.object_size)
    (hmem : ∃ r ∈ rows, r.target = tg ∧ r.operation = op ∧
      r.object_size = sz ∧ r.concurrency = cc) :
    (aggregate_iterations rows).filter
        (fun a => decide (a.target = tg ∧ a.operation = op ∧
          a.object_size = sz ∧ a.concurrency = cc)) =
      [reduceGroup
        { target := tg, operation := op, object_size := sz,
          size_bytes := f sz, concurrency := cc }
        (rows.filter (fun r => decide (r.target = tg ∧ r.operation = op ∧
          r.object_size = sz ∧ r.concurrency = cc)))] := by
  obtain ⟨r0, hr0, h1, h2, h3, h4⟩ := hmem
  have hk5 : keyOf r0 =
      { target := tg, operation := op, object_size := sz,
        size_bytes := f sz, concurrency := cc } := by
    simp only [keyOf, GKey.mk.injEq]
    exact ⟨h1, h2, h3, by rw [hdep r0 hr0, h3], h4⟩
  have hmemk :
      ({ target := tg, operation := op, object_size := sz,
         size_bytes := f sz, concurrency := cc } : GKey)
        ∈ uniqFirst (rows.map keyOf) := by
    rw [mem_uniqFirst, List.mem_map]
    exact ⟨r0, hr0, hk5⟩
  rw [aggregate_iterations]
  rw [filter_map_single _ _ (uniqFirst (rows.map keyOf))
    (nodup_uniqFirst _) _ hmemk ?hchar]
  case hchar =>
    intro x hx
    rw [decide_eq_true_iff]
    constructor
    · rintro ⟨e1, e2, e3, e4⟩
      rw [mem_uniqFirst, List.mem_map] at hx
      obtain ⟨r, hr, rfl⟩ := hx
      simp only [reduceGroup, keyOf] at e1 e2 e3 e4
      simp only [keyOf, GKey.mk.injEq]
      exact ⟨e1, e2, e3, (by rw [hdep r hr, e3] : r.size_bytes = f sz), e4⟩
    · rintro rfl
      exact ⟨rfl, rfl, rfl, rfl⟩
  have hgrp : groupRows rows
      { target := tg, operation := op, object_size := sz,
        size_bytes := f sz, concurrency := cc } =
      rows.filter (fun r => decide (r.target = tg ∧ r.operation = op ∧
        r.object_size = sz ∧ r.concurrency = cc)) := by
    rw [groupRows]
    refine List.filter_congr ?_
    intro r hr
    rw [decide_eq_decide]
    constructor
    · intro he
      have := hk5  -- keep
      rw [keyOf, GKey.mk.injEq] at he
      exact ⟨he.1, he.2.1, he.2.2.1, he.2.2.2.2⟩
    · rintro ⟨e1, e2, e3, e4⟩
      rw [keyOf, GKey.mk.injEq]
      exact ⟨e1, e2, e3, (by rw [hdep r hr, e3] : r.size_bytes = f sz), e4⟩
  rw [hgrp]

set_option maxRecDepth 200000 in
/-- Witness for C6: three iterations with throughputs 10, 20, 30 and 100
operations each reduce to median throughput 20 and summed operations 300. -/
theorem aggregation_groups_witness :
    (aggregate_iterations rows3).filter
        (fun a => decide (a.target = "aws" ∧ a.operation = "get" ∧
          a.object_size = "1MiB" ∧ a.concurrency = 8)) =
      [{ target := "aws", operation := "get", object_size := "1MiB",
         size_bytes := 1048576, concurrency := 8,
         throughput_mbps := 20, ops_per_sec := 0, avg_latency_ms := 0,
         p50_latency_ms := 0, p90_latency_ms := 0, p99_latency_ms := 0,
         total_operations := 300, errors := 0, error_rate := 0 }] :=
  (aggregation_groups_reduces (fun _ => 1048576) rows3 "aws" "get" "1MiB" 8
      (by intro r hr; fin_cases hr <;> rfl)
      ⟨{ baseRow with iteration := 1, throughput_mbps := 10, total_operations := 100 },
        (by rw [rows3]; exact List.mem_cons_self _ _), rfl, rfl, rfl, rfl⟩).trans
    (by decide)

end S3PerfTests
